import Mathlib

/-!
Shallow embedding of the indicator-extraction engine
(`extract_indicators` in `labs/lab4/app/log_explainer_agent/agent.py`).

The Python function runs six regular expressions over the input text with
`re.findall` / `re.search` and assembles a report.  Each pattern is embedded
here as a specialised matcher over `List Char` together with a faithful
left-to-right, non-overlapping scan (`findall`).  For every pattern the
backtracking behaviour of the Python engine has been resolved by hand into a
deterministic matcher; comments on each matcher record why the resolution is
exact (the character classes involved are disjoint from the delimiters that
follow them, so greedy runs are forced).
-/

/-- Non-ASCII codepoint ranges of Unicode general category Nd (decimal
digits) in Unicode 14.0, the tables of the CPython 3.11 interpreter the
program runs under; together with the ASCII range 48..57 these are exactly
the characters Python's regex `\d` matches on `str`. -/
def ndRanges : List (Nat × Nat) := [
  (1632, 1641), (1776, 1785), (1984, 1993), (2406, 2415), (2534, 2543), (2662, 2671),
  (2790, 2799), (2918, 2927), (3046, 3055), (3174, 3183), (3302, 3311), (3430, 3439),
  (3558, 3567), (3664, 3673), (3792, 3801), (3872, 3881), (4160, 4169), (4240, 4249),
  (6112, 6121), (6160, 6169), (6470, 6479), (6608, 6617), (6784, 6793), (6800, 6809),
  (6992, 7001), (7088, 7097), (7232, 7241), (7248, 7257), (42528, 42537), (43216, 43225),
  (43264, 43273), (43472, 43481), (43504, 43513), (43600, 43609), (44016, 44025), (65296, 65305),
  (66720, 66729), (68912, 68921), (69734, 69743), (69872, 69881), (69942, 69951), (70096, 70105),
  (70384, 70393), (70736, 70745), (70864, 70873), (71248, 71257), (71360, 71369), (71472, 71481),
  (71904, 71913), (72016, 72025), (72784, 72793), (73040, 73049), (73120, 73129), (92768, 92777),
  (92864, 92873), (93008, 93017), (120782, 120831), (123200, 123209), (123632, 123641), (125264, 125273),
  (130032, 130041)]

/-- Non-ASCII codepoint ranges of the remaining word-forming alphanumerics
of Unicode 14.0: codepoints where Python's `str.isalnum` holds but that are
not category Nd (letters and the numeric categories Nl, No).  Together with
the ASCII letters and `ndRanges` and the underscore these are exactly the
characters Python's regex `\w` (and so the `\b` boundary) treats as word
characters on `str`. -/
def alnumOtherRanges : List (Nat × Nat) := [
  (170, 170), (178, 179), (181, 181), (185, 186), (188, 190), (192, 214),
  (216, 246), (248, 705), (710, 721), (736, 740), (748, 748), (750, 750),
  (880, 884), (886, 887), (890, 893), (895, 895), (902, 902), (904, 906),
  (908, 908), (910, 929), (931, 1013), (1015, 1153), (1162, 1327), (1329, 1366),
  (1369, 1369), (1376, 1416), (1488, 1514), (1519, 1522), (1568, 1610), (1646, 1647),
  (1649, 1747), (1749, 1749), (1765, 1766), (1774, 1775), (1786, 1788), (1791, 1791),
  (1808, 1808), (1810, 1839), (1869, 1957), (1969, 1969), (1994, 2026), (2036, 2037),
  (2042, 2042), (2048, 2069), (2074, 2074), (2084, 2084), (2088, 2088), (2112, 2136),
  (2144, 2154), (2160, 2183), (2185, 2190), (2208, 2249), (2308, 2361), (2365, 2365),
  (2384, 2384), (2392, 2401), (2417, 2432), (2437, 2444), (2447, 2448), (2451, 2472),
  (2474, 2480), (2482, 2482), (2486, 2489), (2493, 2493), (2510, 2510), (2524, 2525),
  (2527, 2529), (2544, 2545), (2548, 2553), (2556, 2556), (2565, 2570), (2575, 2576),
  (2579, 2600), (2602, 2608), (2610, 2611), (2613, 2614), (2616, 2617), (2649, 2652),
  (2654, 2654), (2674, 2676), (2693, 2701), (2703, 2705), (2707, 2728), (2730, 2736),
  (2738, 2739), (2741, 2745), (2749, 2749), (2768, 2768), (2784, 2785), (2809, 2809),
  (2821, 2828), (2831, 2832), (2835, 2856), (2858, 2864), (2866, 2867), (2869, 2873),
  (2877, 2877), (2908, 2909), (2911, 2913), (2929, 2935), (2947, 2947), (2949, 2954),
  (2958, 2960), (2962, 2965), (2969, 2970), (2972, 2972), (2974, 2975), (2979, 2980),
  (2984, 2986), (2990, 3001), (3024, 3024), (3056, 3058), (3077, 3084), (3086, 3088),
  (3090, 3112), (3114, 3129), (3133, 3133), (3160, 3162), (3165, 3165), (3168, 3169),
  (3192, 3198), (3200, 3200), (3205, 3212), (3214, 3216), (3218, 3240), (3242, 3251),
  (3253, 3257), (3261, 3261), (3293, 3294), (3296, 3297), (3313, 3314), (3332, 3340),
  (3342, 3344), (3346, 3386), (3389, 3389), (3406, 3406), (3412, 3414), (3416, 3425),
  (3440, 3448), (3450, 3455), (3461, 3478), (3482, 3505), (3507, 3515), (3517, 3517),
  (3520, 3526), (3585, 3632), (3634, 3635), (3648, 3654), (3713, 3714), (3716, 3716),
  (3718, 3722), (3724, 3747), (3749, 3749), (3751, 3760), (3762, 3763), (3773, 3773),
  (3776, 3780), (3782, 3782), (3804, 3807), (3840, 3840), (3882, 3891), (3904, 3911),
  (3913, 3948), (3976, 3980), (4096, 4138), (4159, 4159), (4176, 4181), (4186, 4189),
  (4193, 4193), (4197, 4198), (4206, 4208), (4213, 4225), (4238, 4238), (4256, 4293),
  (4295, 4295), (4301, 4301), (4304, 4346), (4348, 4680), (4682, 4685), (4688, 4694),
  (4696, 4696), (4698, 4701), (4704, 4744), (4746, 4749), (4752, 4784), (4786, 4789),
  (4792, 4798), (4800, 4800), (4802, 4805), (4808, 4822), (4824, 4880), (4882, 4885),
  (4888, 4954), (4969, 4988), (4992, 5007), (5024, 5109), (5112, 5117), (5121, 5740),
  (5743, 5759), (5761, 5786), (5792, 5866), (5870, 5880), (5888, 5905), (5919, 5937),
  (5952, 5969), (5984, 5996), (5998, 6000), (6016, 6067), (6103, 6103), (6108, 6108),
  (6128, 6137), (6176, 6264), (6272, 6276), (6279, 6312), (6314, 6314), (6320, 6389),
  (6400, 6430), (6480, 6509), (6512, 6516), (6528, 6571), (6576, 6601), (6618, 6618),
  (6656, 6678), (6688, 6740), (6823, 6823), (6917, 6963), (6981, 6988), (7043, 7072),
  (7086, 7087), (7098, 7141), (7168, 7203), (7245, 7247), (7258, 7293), (7296, 7304),
  (7312, 7354), (7357, 7359), (7401, 7404), (7406, 7411), (7413, 7414), (7418, 7418),
  (7424, 7615), (7680, 7957), (7960, 7965), (7968, 8005), (8008, 8013), (8016, 8023),
  (8025, 8025), (8027, 8027), (8029, 8029), (8031, 8061), (8064, 8116), (8118, 8124),
  (8126, 8126), (8130, 8132), (8134, 8140), (8144, 8147), (8150, 8155), (8160, 8172),
  (8178, 8180), (8182, 8188), (8304, 8305), (8308, 8313), (8319, 8329), (8336, 8348),
  (8450, 8450), (8455, 8455), (8458, 8467), (8469, 8469), (8473, 8477), (8484, 8484),
  (8486, 8486), (8488, 8488), (8490, 8493), (8495, 8505), (8508, 8511), (8517, 8521),
  (8526, 8526), (8528, 8585), (9312, 9371), (9450, 9471), (10102, 10131), (11264, 11492),
  (11499, 11502), (11506, 11507), (11517, 11517), (11520, 11557), (11559, 11559), (11565, 11565),
  (11568, 11623), (11631, 11631), (11648, 11670), (11680, 11686), (11688, 11694), (11696, 11702),
  (11704, 11710), (11712, 11718), (11720, 11726), (11728, 11734), (11736, 11742), (11823, 11823),
  (12293, 12295), (12321, 12329), (12337, 12341), (12344, 12348), (12353, 12438), (12445, 12447),
  (12449, 12538), (12540, 12543), (12549, 12591), (12593, 12686), (12690, 12693), (12704, 12735),
  (12784, 12799), (12832, 12841), (12872, 12879), (12881, 12895), (12928, 12937), (12977, 12991),
  (13312, 19903), (19968, 42124), (42192, 42237), (42240, 42508), (42512, 42527), (42538, 42539),
  (42560, 42606), (42623, 42653), (42656, 42735), (42775, 42783), (42786, 42888), (42891, 42954),
  (42960, 42961), (42963, 42963), (42965, 42969), (42994, 43009), (43011, 43013), (43015, 43018),
  (43020, 43042), (43056, 43061), (43072, 43123), (43138, 43187), (43250, 43255), (43259, 43259),
  (43261, 43262), (43274, 43301), (43312, 43334), (43360, 43388), (43396, 43442), (43471, 43471),
  (43488, 43492), (43494, 43503), (43514, 43518), (43520, 43560), (43584, 43586), (43588, 43595),
  (43616, 43638), (43642, 43642), (43646, 43695), (43697, 43697), (43701, 43702), (43705, 43709),
  (43712, 43712), (43714, 43714), (43739, 43741), (43744, 43754), (43762, 43764), (43777, 43782),
  (43785, 43790), (43793, 43798), (43808, 43814), (43816, 43822), (43824, 43866), (43868, 43881),
  (43888, 44002), (44032, 55203), (55216, 55238), (55243, 55291), (63744, 64109), (64112, 64217),
  (64256, 64262), (64275, 64279), (64285, 64285), (64287, 64296), (64298, 64310), (64312, 64316),
  (64318, 64318), (64320, 64321), (64323, 64324), (64326, 64433), (64467, 64829), (64848, 64911),
  (64914, 64967), (65008, 65019), (65136, 65140), (65142, 65276), (65313, 65338), (65345, 65370),
  (65382, 65470), (65474, 65479), (65482, 65487), (65490, 65495), (65498, 65500), (65536, 65547),
  (65549, 65574), (65576, 65594), (65596, 65597), (65599, 65613), (65616, 65629), (65664, 65786),
  (65799, 65843), (65856, 65912), (65930, 65931), (66176, 66204), (66208, 66256), (66273, 66299),
  (66304, 66339), (66349, 66378), (66384, 66421), (66432, 66461), (66464, 66499), (66504, 66511),
  (66513, 66517), (66560, 66717), (66736, 66771), (66776, 66811), (66816, 66855), (66864, 66915),
  (66928, 66938), (66940, 66954), (66956, 66962), (66964, 66965), (66967, 66977), (66979, 66993),
  (66995, 67001), (67003, 67004), (67072, 67382), (67392, 67413), (67424, 67431), (67456, 67461),
  (67463, 67504), (67506, 67514), (67584, 67589), (67592, 67592), (67594, 67637), (67639, 67640),
  (67644, 67644), (67647, 67669), (67672, 67702), (67705, 67742), (67751, 67759), (67808, 67826),
  (67828, 67829), (67835, 67867), (67872, 67897), (67968, 68023), (68028, 68047), (68050, 68096),
  (68112, 68115), (68117, 68119), (68121, 68149), (68160, 68168), (68192, 68222), (68224, 68255),
  (68288, 68295), (68297, 68324), (68331, 68335), (68352, 68405), (68416, 68437), (68440, 68466),
  (68472, 68497), (68521, 68527), (68608, 68680), (68736, 68786), (68800, 68850), (68858, 68899),
  (69216, 69246), (69248, 69289), (69296, 69297), (69376, 69415), (69424, 69445), (69457, 69460),
  (69488, 69505), (69552, 69579), (69600, 69622), (69635, 69687), (69714, 69733), (69745, 69746),
  (69749, 69749), (69763, 69807), (69840, 69864), (69891, 69926), (69956, 69956), (69959, 69959),
  (69968, 70002), (70006, 70006), (70019, 70066), (70081, 70084), (70106, 70106), (70108, 70108),
  (70113, 70132), (70144, 70161), (70163, 70187), (70272, 70278), (70280, 70280), (70282, 70285),
  (70287, 70301), (70303, 70312), (70320, 70366), (70405, 70412), (70415, 70416), (70419, 70440),
  (70442, 70448), (70450, 70451), (70453, 70457), (70461, 70461), (70480, 70480), (70493, 70497),
  (70656, 70708), (70727, 70730), (70751, 70753), (70784, 70831), (70852, 70853), (70855, 70855),
  (71040, 71086), (71128, 71131), (71168, 71215), (71236, 71236), (71296, 71338), (71352, 71352),
  (71424, 71450), (71482, 71483), (71488, 71494), (71680, 71723), (71840, 71903), (71914, 71922),
  (71935, 71942), (71945, 71945), (71948, 71955), (71957, 71958), (71960, 71983), (71999, 71999),
  (72001, 72001), (72096, 72103), (72106, 72144), (72161, 72161), (72163, 72163), (72192, 72192),
  (72203, 72242), (72250, 72250), (72272, 72272), (72284, 72329), (72349, 72349), (72368, 72440),
  (72704, 72712), (72714, 72750), (72768, 72768), (72794, 72812), (72818, 72847), (72960, 72966),
  (72968, 72969), (72971, 73008), (73030, 73030), (73056, 73061), (73063, 73064), (73066, 73097),
  (73112, 73112), (73440, 73458), (73648, 73648), (73664, 73684), (73728, 74649), (74752, 74862),
  (74880, 75075), (77712, 77808), (77824, 78894), (82944, 83526), (92160, 92728), (92736, 92766),
  (92784, 92862), (92880, 92909), (92928, 92975), (92992, 92995), (93019, 93025), (93027, 93047),
  (93053, 93071), (93760, 93846), (93952, 94026), (94032, 94032), (94099, 94111), (94176, 94177),
  (94179, 94179), (94208, 100343), (100352, 101589), (101632, 101640), (110576, 110579), (110581, 110587),
  (110589, 110590), (110592, 110882), (110928, 110930), (110948, 110951), (110960, 111355), (113664, 113770),
  (113776, 113788), (113792, 113800), (113808, 113817), (119520, 119539), (119648, 119672), (119808, 119892),
  (119894, 119964), (119966, 119967), (119970, 119970), (119973, 119974), (119977, 119980), (119982, 119993),
  (119995, 119995), (119997, 120003), (120005, 120069), (120071, 120074), (120077, 120084), (120086, 120092),
  (120094, 120121), (120123, 120126), (120128, 120132), (120134, 120134), (120138, 120144), (120146, 120485),
  (120488, 120512), (120514, 120538), (120540, 120570), (120572, 120596), (120598, 120628), (120630, 120654),
  (120656, 120686), (120688, 120712), (120714, 120744), (120746, 120770), (120772, 120779), (122624, 122654),
  (123136, 123180), (123191, 123197), (123214, 123214), (123536, 123565), (123584, 123627), (124896, 124902),
  (124904, 124907), (124909, 124910), (124912, 124926), (124928, 125124), (125127, 125135), (125184, 125251),
  (125259, 125259), (126065, 126123), (126125, 126127), (126129, 126132), (126209, 126253), (126255, 126269),
  (126464, 126467), (126469, 126495), (126497, 126498), (126500, 126500), (126503, 126503), (126505, 126514),
  (126516, 126519), (126521, 126521), (126523, 126523), (126530, 126530), (126535, 126535), (126537, 126537),
  (126539, 126539), (126541, 126543), (126545, 126546), (126548, 126548), (126551, 126551), (126553, 126553),
  (126555, 126555), (126557, 126557), (126559, 126559), (126561, 126562), (126564, 126564), (126567, 126570),
  (126572, 126578), (126580, 126583), (126585, 126588), (126590, 126590), (126592, 126601), (126603, 126619),
  (126625, 126627), (126629, 126633), (126635, 126651), (127232, 127244), (131072, 173791), (173824, 177976),
  (177984, 178205), (178208, 183969), (183984, 191456), (194560, 195101), (196608, 201546)]

/-- Whether `n` lies in one of the ranges. -/
def inRanges (rs : List (Nat × Nat)) (n : Nat) : Bool :=
  rs.any (fun r => r.1 ≤ n && n ≤ r.2)

/-- Python regex `\d` on `str` (no `re.ASCII` in the source): a Unicode
decimal digit, category Nd.  ASCII is decided directly; other codepoints by
the Nd table. -/
def isPyDigit (c : Char) : Bool :=
  if c.toNat < 128 then 48 ≤ c.toNat && c.toNat ≤ 57
  else inRanges ndRanges c.toNat

/-- The word-forming alphanumerics that are not decimal digits (Python
`str.isalnum` minus category Nd): ASCII letters, plus the non-ASCII table. -/
def isOtherAlnum (c : Char) : Bool :=
  if c.toNat < 128 then
    (65 ≤ c.toNat && c.toNat ≤ 90) || (97 ≤ c.toNat && c.toNat ≤ 122)
  else inRanges alnumOtherRanges c.toNat

/-- Word character of the regex `\b` / `\w` semantics of the source
patterns (Unicode, since the source compiles `str` patterns without
`re.ASCII`): underscore or any character with Python `str.isalnum`. -/
def isWordChar (c : Char) : Bool := c == '_' || isPyDigit c || isOtherAlnum c

/-- Whether the character at index `i` of `cs` is a word character
(out-of-range counts as non-word). -/
def isWordAt (cs : List Char) (i : Nat) : Bool :=
  match cs[i]? with
  | some c => isWordChar c
  | none => false

/-- Word boundary (`\b`) at position `i`, i.e. between indices `i-1` and `i`:
exactly one side is a word character. -/
def wordBoundary (cs : List Char) (i : Nat) : Bool :=
  (if i = 0 then false else isWordAt cs (i - 1)) != isWordAt cs i

/-- Length of the maximal run of characters satisfying `p` starting at
index `i`. -/
def runLen (p : Char → Bool) (cs : List Char) (i : Nat) : Nat :=
  ((cs.drop i).takeWhile p).length

/-- Matcher for the IPv4 pattern `\b(?:\d{1,3}\.){3}\d{1,3}\b` at position
`i`; returns the end index of the match.  Greedy `\d{1,3}` before a literal
`.` (resp. before the final `\b`) is forced: shortening a digit run leaves a
digit where `.` (resp. a non-word character) is required, so the run must be
the whole maximal digit run, of length 1..3. -/
def matchIp (cs : List Char) (i : Nat) : Option Nat :=
  if !wordBoundary cs i then none else
  let r1 := runLen isPyDigit cs i
  if r1 = 0 || 3 < r1 || cs[i + r1]? != some '.' then none else
  let p1 := i + r1 + 1
  let r2 := runLen isPyDigit cs p1
  if r2 = 0 || 3 < r2 || cs[p1 + r2]? != some '.' then none else
  let p2 := p1 + r2 + 1
  let r3 := runLen isPyDigit cs p2
  if r3 = 0 || 3 < r3 || cs[p2 + r3]? != some '.' then none else
  let p3 := p2 + r3 + 1
  let r4 := runLen isPyDigit cs p3
  if r4 = 0 || 3 < r4 || isWordAt cs (p3 + r4) then none else
  some (p3 + r4)

/-- Character class `[a-zA-Z0-9-]` of the domain pattern. -/
def isLabelChar (c : Char) : Bool := c.isAlphanum || c == '-'

/-- Tail `[a-zA-Z]{2,}\b` of the domain pattern at position `p`.  The greedy
letter run is forced: ending it early leaves a letter (a word character)
right after, where `\b` fails; so the run is the maximal letter run, its
length must be at least 2, and the character after it must be non-word. -/
def domainTail (cs : List Char) (p : Nat) : Option Nat :=
  let m := runLen Char.isAlpha cs p
  if 2 ≤ m && !isWordAt cs (p + m) then some (p + m) else none

/-- Body `(?:[a-zA-Z0-9-]+\.)+[a-zA-Z]{2,}\b` of the domain pattern starting
at `p`, requiring at least one `label.` repetition.  Each repetition is
forced to be the maximal label run followed by a literal `.` (the label class
does not contain `.`).  The recursion first tries to extend with more
repetitions (greedy `+`), and on failure falls back to matching the tail
right after the current repetition — exactly the engine's backtracking
order over the repetition count. -/
def domainFrom (cs : List Char) : Nat → Nat → Option Nat
  | 0, _ => none
  | fuel + 1, p =>
    let r := runLen isLabelChar cs p
    if r = 0 || cs[p + r]? != some '.' then none else
    let q := p + r + 1
    match domainFrom cs fuel q with
    | some e => some e
    | none => domainTail cs q

/-- Matcher for the domain pattern `\b(?:[a-zA-Z0-9-]+\.)+[a-zA-Z]{2,}\b`. -/
def matchDomain (cs : List Char) (i : Nat) : Option Nat :=
  if wordBoundary cs i then domainFrom cs (cs.length + 1) i else none

/-- Python regex `\s` on `str`: exactly the characters with
`str.isspace` — the ASCII whitespace and file/group/record/unit separators,
and the Unicode space characters. -/
def isPySpace (c : Char) : Bool :=
  if c.toNat < 128 then
    (9 ≤ c.toNat && c.toNat ≤ 13) || (28 ≤ c.toNat && c.toNat ≤ 32)
  else
    [133, 160, 5760, 8192, 8193, 8194, 8195, 8196, 8197, 8198, 8199, 8200,
     8201, 8202, 8232, 8233, 8239, 8287, 12288].contains c.toNat

/-- Character class `[^\s)>"]` of the URL pattern. -/
def isUrlChar (c : Char) : Bool :=
  !isPySpace c && c != ')' && c != '>' && c != '"'

/-- Largest end position `base + t` with `1 ≤ t ≤ n` at which a word
boundary holds; this is how a greedy run followed by `\b` backtracks. -/
def lastBoundary (cs : List Char) (base : Nat) : Nat → Option Nat
  | 0 => none
  | t + 1 =>
    if wordBoundary cs (base + t + 1) then some (base + t + 1)
    else lastBoundary cs base t

/-- Whether the literal `lit` occurs in `cs` starting at index `i`. -/
def litAt (cs : List Char) (i : Nat) (lit : List Char) : Bool :=
  lit.isPrefixOf (cs.drop i)

/-- Matcher for the URL pattern `\bhttps?://[^\s)>"]+\b`.  `https?` reduces
to trying the literal `https://` and then `http://` (if `https://` is
present the greedy `s?` takes it; otherwise the `s` branch cannot complete
`://`).  The trailing `\b` makes the greedy run backtrack to the longest
prefix ending at a word boundary. -/
def matchUrl (cs : List Char) (i : Nat) : Option Nat :=
  if !wordBoundary cs i then none else
  if litAt cs i "https://".data then
    lastBoundary cs (i + 8) (runLen isUrlChar cs (i + 8))
  else if litAt cs i "http://".data then
    lastBoundary cs (i + 7) (runLen isUrlChar cs (i + 7))
  else none

/-- Character class `[^ \n\t\r]` of the Unix-path pattern. -/
def isUnixChar (c : Char) : Bool :=
  c != ' ' && c != '\n' && c != '\t' && c != '\r'

/-- Matcher for the Unix-path pattern `(?:(?:/[^ \n\t\r]+)+)`.  The inner
class contains `/`, so a single `/` followed by the maximal non-delimiter
run absorbs all further `/segment` groups; with no trailing constraint the
greedy maximal run is the match. -/
def matchUnix (cs : List Char) (i : Nat) : Option Nat :=
  if cs[i]? != some '/' then none else
  let r := runLen isUnixChar cs (i + 1)
  if r = 0 then none else some (i + 1 + r)

/-- Character class `[^\n\r\t]` of the Windows-path pattern (note: it does
contain the space character). -/
def isWinChar (c : Char) : Bool := c != '\n' && c != '\r' && c != '\t'

/-- Matcher for the Windows-path pattern `\b[A-Za-z]:\\[^\n\r\t]+\b`. -/
def matchWin (cs : List Char) (i : Nat) : Option Nat :=
  if !wordBoundary cs i then none else
  match cs[i]? with
  | some c =>
    if !c.isAlpha then none else
    if cs[i + 1]? != some ':' || cs[i + 2]? != some '\\' then none else
    lastBoundary cs (i + 3) (runLen isWinChar cs (i + 3))
  | none => none

/-- Matcher for the status-code pattern `\b(1\d{2}|2\d{2}|3\d{2}|4\d{2}|5\d{2})\b`:
three digits, the first in `1`..`5`, word-bounded on both sides (the final
boundary after a digit means the next character is non-word). -/
def matchStatus (cs : List Char) (i : Nat) : Option Nat :=
  if !wordBoundary cs i then none else
  match cs[i]?, cs[i + 1]?, cs[i + 2]? with
  | some a, some b, some c =>
    if '1' ≤ a && a ≤ '5' && isPyDigit b && isPyDigit c && !isWordAt cs (i + 3)
    then some (i + 3) else none
  | _, _, _ => none

/-- Substring of `cs` from index `i` (inclusive) to `j` (exclusive). -/
def sliceStr (cs : List Char) (i j : Nat) : String :=
  String.mk ((cs.drop i).take (j - i))

/-- Left-to-right, non-overlapping scan: Python `re.findall` for a matcher
returning end positions.  After a (non-empty) match the scan resumes at the
match end; after a failure it advances one position. -/
def findallAux (m : List Char → Nat → Option Nat) (cs : List Char) :
    Nat → Nat → List String
  | 0, _ => []
  | fuel + 1, i =>
    if cs.length ≤ i then [] else
    match m cs i with
    | some j =>
      if i < j then sliceStr cs i j :: findallAux m cs fuel j
      else findallAux m cs fuel (i + 1)
    | none => findallAux m cs fuel (i + 1)

/-- Python `re.findall pattern text` for one of the embedded matchers. -/
def findall (m : List Char → Nat → Option Nat) (cs : List Char) : List String :=
  findallAux m cs (cs.length + 1) 0

/-- Boolean lexicographic comparison of two character lists (by code point):
the order Python's `sorted` uses on `str`.  It agrees with the `<` of
`String` (see `charsLt_iff_lt`). -/
def charsLt : List Char → List Char → Bool
  | [], [] => false
  | [], _ :: _ => true
  | _ :: _, [] => false
  | a :: as, b :: bs =>
    if a < b then true else if b < a then false else charsLt as bs

/-- Insert a string into a strictly sorted list, skipping it if already
present. -/
def sortedInsert (s : String) : List String → List String
  | [] => [s]
  | t :: ts =>
    if charsLt s.data t.data then s :: t :: ts
    else if charsLt t.data s.data then t :: sortedInsert s ts
    else t :: ts

/-- Python `sorted(set(l))`: the strictly sorted list of the distinct
elements of `l` (lexicographic string order). -/
def sortDedup (l : List String) : List String := l.foldr sortedInsert []

/-- Fixed ordered keyword list of the source. -/
def KEYWORDS : List String :=
  ["error", "failed", "denied", "timeout", "exception", "forbidden", "unauthorized"]

/-- Extra matches of a lowercase ASCII letter literal under Python re
IGNORECASE on `str`, beyond its own case pair, as (pattern letter, text
character) codepoints: `i` also matches İ (U+0130) and ı (U+0131), `k` also
matches the Kelvin sign K (U+212A), `s` also matches the long s ſ (U+017F);
no other lowercase ASCII letter has extra matches. -/
def ciExtra : List (Nat × Nat) := [(105, 304), (105, 305), (107, 8490), (115, 383)]

/-- Whether text character `c` matches the lowercase ASCII letter literal
`lit` of a pattern compiled with `re.IGNORECASE`: the letter itself, its
uppercase (codepoint minus 32), or an extra equivalence from `ciExtra`. -/
def ciMatches (lit c : Char) : Bool :=
  c == lit || c.toNat == lit.toNat - 32 || ciExtra.contains (lit.toNat, c.toNat)

/-- Character-by-character IGNORECASE match of a text slice against a
lowercase keyword literal (Python re matches literals one character at a
time; there is no multi-character folding). -/
def ciMatchesList : List Char → List Char → Bool
  | [], [] => true
  | c :: cs, l :: ls => ciMatches l c && ciMatchesList cs ls
  | _, _ => false

/-- Case-insensitive whole-word occurrence of the (lowercase) literal `kw`
at position `i`: the slice of the text matches `kw` character-wise under
IGNORECASE and both ends sit on word boundaries — the embedding of
`re.search(rf"\b{kw}\b", text, re.IGNORECASE)` testing position `i`. -/
def kwAt (cs : List Char) (kw : List Char) (i : Nat) : Bool :=
  ciMatchesList ((cs.drop i).take kw.length) kw
    && wordBoundary cs i && wordBoundary cs (i + kw.length)

/-- Python `re.search(rf"\b{kw}\b", text, re.IGNORECASE) is not None`. -/
def searchKw (cs : List Char) (kw : List Char) : Bool :=
  (List.range (cs.length + 1)).any (kwAt cs kw)

/-- Output record of `extract_indicators`; `counts` is the dict literal of
the source in its insertion order. -/
structure IndicatorReport where
  ok : Bool
  counts : List (String × Nat)
  ips : List String
  domains : List String
  urls : List String
  file_paths : List String
  status_codes : List String
  keywords : List String
deriving DecidableEq, Repr

/-- Local variable `ips` of the source: `sorted(set(ip_re.findall(text)))`. -/
def ipsOf (cs : List Char) : List String := sortDedup (findall matchIp cs)

/-- Local variable `domains` of the source:
`sorted({d for d in domain_re.findall(text) if d not in ips})`. -/
def domainsOf (cs : List Char) : List String :=
  sortDedup ((findall matchDomain cs).filter (fun d => !(ipsOf cs).contains d))

/-- Local variable `urls` of the source: `sorted(set(url_re.findall(text)))`. -/
def urlsOf (cs : List Char) : List String := sortDedup (findall matchUrl cs)

/-- Local variable `file_paths` of the source:
`sorted(set(unix_path_re.findall(text) + win_path_re.findall(text)))`. -/
def filePathsOf (cs : List Char) : List String :=
  sortDedup (findall matchUnix cs ++ findall matchWin cs)

/-- Local variable `statuses` of the source:
`sorted(set(status_re.findall(text)))`. -/
def statusCodesOf (cs : List Char) : List String :=
  sortDedup (findall matchStatus cs)

/-- Local variable `keywords` of the source: the fixed literals kept in list
order when `re.search` finds them case-insensitively as a whole word. -/
def keywordsOf (cs : List Char) : List String :=
  KEYWORDS.filter (fun kw => searchKw cs kw.data)

/-- Embedding of the tool function `extract_indicators(log_text)`.  `none`
models Python `None`; `log_text or ""` is `Option.getD` here (the only other
falsy string is `""`, which maps to itself).  The `counts` dict of the source
has exactly these five keys, in this insertion order. -/
def extract_indicators (log_text : Option String) : IndicatorReport :=
  let text := (log_text.getD "").data
  { ok := true
    counts := [("ips", (ipsOf text).length), ("domains", (domainsOf text).length),
               ("urls", (urlsOf text).length), ("file_paths", (filePathsOf text).length),
               ("status_codes", (statusCodesOf text).length)]
    ips := ipsOf text
    domains := domainsOf text
    urls := urlsOf text
    file_paths := filePathsOf text
    status_codes := statusCodesOf text
    keywords := keywordsOf text }

/-- Spec-side reading of the status-code rule, stated from the spec's words
and independent of the scan: `s` is a standalone (word-bounded) three-digit
token whose first digit is between 1 and 5, occurring in the text at
position `i`. -/
def statusTokenAt (cs : List Char) (i : Nat) (s : String) : Prop :=
  ∃ a b c, cs[i]? = some a ∧ cs[i + 1]? = some b ∧ cs[i + 2]? = some c ∧
    ('1' ≤ a ∧ a ≤ '5') ∧ isPyDigit b = true ∧ isPyDigit c = true ∧
    wordBoundary cs i = true ∧ isWordAt cs (i + 3) = false ∧ s = String.mk [a, b, c]

/-- Spec-side reading of a case-insensitive whole-word occurrence of the
lowercase literal `kw` somewhere in the text: at some position the slice of
the text matches `kw` character-wise under IGNORECASE and both edges are
word boundaries. -/
def occursWholeWordCI (cs : List Char) (kw : List Char) : Prop :=
  ∃ i, ciMatchesList ((cs.drop i).take kw.length) kw = true ∧
    wordBoundary cs i = true ∧ wordBoundary cs (i + kw.length) = true

/-- Digit value of a Unicode decimal digit: for ASCII its value, otherwise
its offset inside its Nd block (each Nd range is a 0..9 block). -/
def digitVal (c : Char) : Nat :=
  if c.toNat < 128 then c.toNat - 48
  else
    match ndRanges.find? (fun r => r.1 ≤ c.toNat && c.toNat ≤ r.2) with
    | some r => c.toNat - r.1
    | none => 0

/-- Numeric value denoted by a three-digit code string (0 for any other
shape); used to compare lexicographic and numeric ordering of codes. -/
def codeVal (s : String) : Nat :=
  match s.data with
  | [a, b, c] => 100 * digitVal a + 10 * digitVal b + digitVal c
  | _ => 0

/-! ## Helper lemmas -/

theorem extract_ok (t : Option String) : (extract_indicators t).ok = true := rfl

theorem extract_ips (t : Option String) :
    (extract_indicators t).ips = ipsOf ((t.getD "").data) := rfl

theorem extract_domains (t : Option String) :
    (extract_indicators t).domains = domainsOf ((t.getD "").data) := rfl

theorem extract_urls (t : Option String) :
    (extract_indicators t).urls = urlsOf ((t.getD "").data) := rfl

theorem extract_file_paths (t : Option String) :
    (extract_indicators t).file_paths = filePathsOf ((t.getD "").data) := rfl

theorem extract_status_codes (t : Option String) :
    (extract_indicators t).status_codes = statusCodesOf ((t.getD "").data) := rfl

theorem extract_keywords (t : Option String) :
    (extract_indicators t).keywords = keywordsOf ((t.getD "").data) := rfl

theorem charsLt_iff_lex :
    ∀ as bs : List Char, charsLt as bs = true ↔ List.Lex (· < ·) as bs
  | [], [] => by
    simp only [charsLt, Bool.false_eq_true, false_iff]
    exact List.Lex.not_nil_right _ _
  | [], _ :: _ => by
    simp only [charsLt, true_iff]
    exact List.Lex.nil
  | _ :: _, [] => by
    simp only [charsLt, Bool.false_eq_true, false_iff]
    exact List.Lex.not_nil_right _ _
  | a :: as, b :: bs => by
    by_cases hab : a < b
    · simp only [charsLt, if_pos hab, true_iff]
      exact List.Lex.rel hab
    · by_cases hba : b < a
      · simp only [charsLt, if_neg hab, if_pos hba, Bool.false_eq_true, false_iff]
        intro hlex
        cases hlex with
        | cons h => exact lt_irrefl _ hba
        | rel h => exact hab h
      · have heq : a = b := le_antisymm (not_lt.mp hba) (not_lt.mp hab)
        subst heq
        simp only [charsLt, if_neg hab, if_neg hba]
        rw [charsLt_iff_lex as bs]
        exact (List.Lex.cons_iff).symm

theorem charsLt_iff_lt (s t : String) : charsLt s.data t.data = true ↔ s < t := by
  rw [String.lt_iff_toList_lt]
  exact charsLt_iff_lex s.data t.data

theorem mem_sortedInsert (s a : String) (l : List String) :
    a ∈ sortedInsert s l ↔ a = s ∨ a ∈ l := by
  induction l with
  | nil => simp [sortedInsert]
  | cons t ts ih =>
    by_cases h1 : s < t
    · rw [show sortedInsert s (t :: ts) = s :: t :: ts from by
        simp only [sortedInsert, if_pos ((charsLt_iff_lt s t).mpr h1)]]
      simp only [List.mem_cons]
      try tauto
    · have c1 : ¬ charsLt s.data t.data = true :=
        fun hc => h1 ((charsLt_iff_lt s t).mp hc)
      by_cases h2 : t < s
      · rw [show sortedInsert s (t :: ts) = t :: sortedInsert s ts from by
          simp only [sortedInsert, if_neg c1, if_pos ((charsLt_iff_lt t s).mpr h2)]]
        simp only [List.mem_cons, ih]
        try tauto
      · have c2 : ¬ charsLt t.data s.data = true :=
          fun hc => h2 ((charsLt_iff_lt t s).mp hc)
        have hst : s = t := le_antisymm (not_lt.mp h2) (not_lt.mp h1)
        subst hst
        rw [show sortedInsert s (s :: ts) = s :: ts from by
          simp only [sortedInsert, if_neg c1, if_neg c2]]
        simp only [List.mem_cons]
        try tauto

theorem sorted_sortedInsert (s : String) (l : List String)
    (h : l.Sorted (· < ·)) : (sortedInsert s l).Sorted (· < ·) := by
  induction l with
  | nil => simp [sortedInsert]
  | cons t ts ih =>
    rw [List.sorted_cons] at h
    by_cases h1 : s < t
    · rw [show sortedInsert s (t :: ts) = s :: t :: ts from by
        simp only [sortedInsert, if_pos ((charsLt_iff_lt s t).mpr h1)]]
      rw [List.sorted_cons, List.sorted_cons]
      refine ⟨?_, h.1, h.2⟩
      rintro b hb
      rcases List.mem_cons.mp hb with rfl | hb'
      · exact h1
      · exact lt_trans h1 (h.1 b hb')
    · have c1 : ¬ charsLt s.data t.data = true :=
        fun hc => h1 ((charsLt_iff_lt s t).mp hc)
      by_cases h2 : t < s
      · rw [show sortedInsert s (t :: ts) = t :: sortedInsert s ts from by
          simp only [sortedInsert, if_neg c1, if_pos ((charsLt_iff_lt t s).mpr h2)]]
        rw [List.sorted_cons]
        refine ⟨?_, ih h.2⟩
        intro b hb
        rcases (mem_sortedInsert s b ts).mp hb with rfl | hb'
        · exact h2
        · exact h.1 b hb'
      · have c2 : ¬ charsLt t.data s.data = true :=
          fun hc => h2 ((charsLt_iff_lt t s).mp hc)
        rw [show sortedInsert s (t :: ts) = t :: ts from by
          simp only [sortedInsert, if_neg c1, if_neg c2]]
        rw [List.sorted_cons]
        exact ⟨h.1, h.2⟩

theorem sorted_sortDedup (l : List String) : (sortDedup l).Sorted (· < ·) := by
  induction l with
  | nil => exact List.sorted_nil
  | cons a l ih => exact sorted_sortedInsert a (sortDedup l) ih

theorem nodup_sortDedup (l : List String) : (sortDedup l).Nodup :=
  (sorted_sortDedup l).nodup

theorem mem_sortDedup (a : String) (l : List String) :
    a ∈ sortDedup l ↔ a ∈ l := by
  induction l with
  | nil => simp [sortDedup]
  | cons b l ih =>
    rw [show sortDedup (b :: l) = sortedInsert b (sortDedup l) from rfl,
        mem_sortedInsert, ih, List.mem_cons]

/-! ## Claim theorems -/

/-- C1 (counterexample): the claim says `counts` has one entry per indicator
kind including `keywords`; on the concrete input "x" the `counts` mapping of
the code has no `keywords` entry at all (its keys are exactly the other
five). -/
theorem counts_no_keywords_entry :
    "keywords" ∉ ((extract_indicators (some "x")).counts.map Prod.fst) ∧
    (extract_indicators (some "x")).counts.map Prod.fst =
      ["ips", "domains", "urls", "file_paths", "status_codes"] := by
  constructor
  · decide
  · rfl

/-- C1 (amended): for every input text, `counts` has exactly one entry for
each of the five kinds ips, domains, urls, file_paths, status_codes (there
is no entry for keywords), and each entry equals the length of the
corresponding list of the report. -/
theorem counts_match_list_lengths (t : Option String) :
    (extract_indicators t).counts =
      [("ips", (extract_indicators t).ips.length),
       ("domains", (extract_indicators t).domains.length),
       ("urls", (extract_indicators t).urls.length),
       ("file_paths", (extract_indicators t).file_paths.length),
       ("status_codes", (extract_indicators t).status_codes.length)] := rfl

/-- C2: `extract_indicators` is a total function of its input (it is a Lean
function, so it cannot raise), and on `none` (Python `None`) and on the
empty string the report has `ok = true`, every count zero and every list
empty. -/
theorem extract_total_on_empty :
    extract_indicators none =
      { ok := true
        counts := [("ips", 0), ("domains", 0), ("urls", 0),
                   ("file_paths", 0), ("status_codes", 0)]
        ips := [], domains := [], urls := [], file_paths := []
        status_codes := [], keywords := [] } ∧
    extract_indicators (some "") =
      { ok := true
        counts := [("ips", 0), ("domains", 0), ("urls", 0),
                   ("file_paths", 0), ("status_codes", 0)]
        ips := [], domains := [], urls := [], file_paths := []
        status_codes := [], keywords := [] } := ⟨rfl, rfl⟩

/-- C3: on "Connect to 10.0.0.1 and api.example.com" the ips list is exactly
["10.0.0.1"] and the domains list exactly ["api.example.com"]; and in
general any string in the IP result list is excluded from the domains
list. -/
theorem ips_domains_exclusion :
    ((extract_indicators (some "Connect to 10.0.0.1 and api.example.com")).ips
        = ["10.0.0.1"] ∧
     (extract_indicators (some "Connect to 10.0.0.1 and api.example.com")).domains
        = ["api.example.com"]) ∧
    ∀ (t : Option String) (d : String),
      d ∈ (extract_indicators t).domains → d ∉ (extract_indicators t).ips := by
  refine ⟨⟨by rfl, by rfl⟩, ?_⟩
  intro t d hd hip
  rw [extract_domains] at hd
  rw [extract_ips] at hip
  unfold domainsOf at hd
  rw [mem_sortDedup] at hd
  have hp := List.of_mem_filter hd
  rw [Bool.not_eq_true'] at hp
  have he : (ipsOf ((t.getD "").data)).elem d = true := List.elem_iff.mpr hip
  rw [show (ipsOf ((t.getD "").data)).contains d
        = (ipsOf ((t.getD "").data)).elem d from rfl, he] at hp
  exact Bool.noConfusion hp

/-- C3 witness: the general exclusion applied at the concrete text of the
claim. -/
theorem ips_domains_exclusion_witness :
    "api.example.com" ∉
      (extract_indicators (some "Connect to 10.0.0.1 and api.example.com")).ips :=
  ips_domains_exclusion.2 (some "Connect to 10.0.0.1 and api.example.com")
    "api.example.com" (by decide)

/-- C6: in every report the lists ips, domains, urls, file_paths and
status_codes are strictly sorted in lexicographic string order (hence
duplicate-free), and keywords is a subsequence of the fixed seven-keyword
list in that list's order. -/
theorem report_lists_sorted_nodup (t : Option String) :
    ((extract_indicators t).ips.Sorted (· < ·) ∧ (extract_indicators t).ips.Nodup) ∧
    ((extract_indicators t).domains.Sorted (· < ·) ∧ (extract_indicators t).domains.Nodup) ∧
    ((extract_indicators t).urls.Sorted (· < ·) ∧ (extract_indicators t).urls.Nodup) ∧
    ((extract_indicators t).file_paths.Sorted (· < ·) ∧ (extract_indicators t).file_paths.Nodup) ∧
    ((extract_indicators t).status_codes.Sorted (· < ·) ∧ (extract_indicators t).status_codes.Nodup) ∧
    (extract_indicators t).keywords.Sublist KEYWORDS :=
  ⟨⟨sorted_sortDedup _, nodup_sortDedup _⟩,
   ⟨sorted_sortDedup _, nodup_sortDedup _⟩,
   ⟨sorted_sortDedup _, nodup_sortDedup _⟩,
   ⟨sorted_sortDedup _, nodup_sortDedup _⟩,
   ⟨sorted_sortDedup _, nodup_sortDedup _⟩,
   List.filter_sublist _⟩

/-- C7 (counterexample): a text that contains both the token
/var/log/app.log and the token C:\Users\test\file.txt (each delimited by
spaces) whose file_paths list does NOT contain "C:\Users\test\file.txt" —
the Windows-path character class includes the space, so the match extends
beyond the token to the last word boundary of the line. -/
theorem file_paths_windows_token_cex :
    ("/var/log/app.log".data <:+:
        "see /var/log/app.log and C:\\Users\\test\\file.txt now".data) ∧
    ("C:\\Users\\test\\file.txt".data <:+:
        "see /var/log/app.log and C:\\Users\\test\\file.txt now".data) ∧
    "C:\\Users\\test\\file.txt" ∉
      (extract_indicators
        (some "see /var/log/app.log and C:\\Users\\test\\file.txt now")).file_paths ∧
    (extract_indicators
        (some "see /var/log/app.log and C:\\Users\\test\\file.txt now")).file_paths =
      ["/var/log/app.log", "C:\\Users\\test\\file.txt now"] := by
  refine ⟨by decide, by decide, by decide, by rfl⟩

/-- C7 (amended): file_paths is always the union of the Unix-style and
Windows-style matches, deduplicated and sorted together in one list; and on
the concrete text "see /var/log/app.log and C:\Users\test\file.txt", where
the Windows token is followed by the end of the text, both tokens appear in
the single lexicographically sorted list. -/
theorem file_paths_mixed_styles :
    (∀ t : Option String, (extract_indicators t).file_paths =
        sortDedup (findall matchUnix ((t.getD "").data) ++
                   findall matchWin ((t.getD "").data))) ∧
    (extract_indicators
        (some "see /var/log/app.log and C:\\Users\\test\\file.txt")).file_paths =
      ["/var/log/app.log", "C:\\Users\\test\\file.txt"] :=
  ⟨fun _ => rfl, by rfl⟩

/-- C8: the report is fully determined by the input text: equal inputs give
identical reports (the embedding is a pure function, so there is no hidden
state to vary between two invocations). -/
theorem extract_deterministic (t₁ t₂ : Option String) (h : t₁ = t₂) :
    extract_indicators t₁ = extract_indicators t₂ := by rw [h]

/-- C8 witness: determinism applied at a concrete input. -/
theorem extract_deterministic_witness :
    extract_indicators (some "GET /index 200") =
      extract_indicators (some "GET /index 200") :=
  extract_deterministic (some "GET /index 200") (some "GET /index 200") rfl

theorem takeWhile_getElem? (p : Char → Bool) :
    ∀ (l : List Char) (k : Nat), k < (l.takeWhile p).length →
      ∃ c, l[k]? = some c ∧ p c = true
  | [], k, h => by simp [List.takeWhile] at h
  | c :: l, k, h => by
    rw [List.takeWhile_cons] at h
    by_cases hp : p c = true
    · rw [if_pos hp] at h
      match k with
      | 0 => exact ⟨c, by simp, hp⟩
      | k + 1 =>
        rw [List.length_cons, Nat.succ_lt_succ_iff] at h
        obtain ⟨d, hd, hpd⟩ := takeWhile_getElem? p l k h
        exact ⟨d, by simpa using hd, hpd⟩
    · rw [if_neg hp] at h
      simp at h

theorem runLen_getElem (p : Char → Bool) (cs : List Char) (i k : Nat)
    (hk : k < runLen p cs i) : ∃ c, cs[i + k]? = some c ∧ p c = true := by
  obtain ⟨c, hc, hp⟩ := takeWhile_getElem? p (cs.drop i) k hk
  rw [List.getElem?_drop] at hc
  exact ⟨c, hc, hp⟩

theorem runLen_last (p : Char → Bool) (cs : List Char) (q : Nat)
    (hr : runLen p cs q ≠ 0) :
    ∃ c, cs[q + runLen p cs q - 1]? = some c ∧ p c = true := by
  obtain ⟨c, hc, hp⟩ := runLen_getElem p cs q (runLen p cs q - 1) (by omega)
  rw [show q + (runLen p cs q - 1) = q + runLen p cs q - 1 from by omega] at hc
  exact ⟨c, hc, hp⟩

theorem sliceStr_getLast {cs : List Char} {i j : Nat} (hij : i < j) {c : Char}
    (hc : cs[j - 1]? = some c) : (sliceStr cs i j).data.getLast? = some c := by
  have hj : j ≤ cs.length := by
    obtain ⟨hlt, _⟩ := List.getElem?_eq_some_iff.mp hc
    omega
  show ((cs.drop i).take (j - i)).getLast? = some c
  rw [List.getLast?_eq_getElem?]
  have hlen : ((cs.drop i).take (j - i)).length = j - i := by
    rw [List.length_take, List.length_drop]
    omega
  rw [hlen, List.getElem?_take, if_pos (by omega), List.getElem?_drop,
      show i + (j - i - 1) = j - 1 from by omega]
  exact hc

theorem mem_findallAux {m : List Char → Nat → Option Nat} {cs : List Char} :
    ∀ {fuel i : Nat} {s : String}, s ∈ findallAux m cs fuel i →
      ∃ p q, m cs p = some q ∧ p < q ∧ s = sliceStr cs p q := by
  intro fuel
  induction fuel with
  | zero => intro i s h; simp [findallAux] at h
  | succ fuel ih =>
    intro i s h
    rw [findallAux] at h
    split at h
    · simp at h
    · split at h
      · split at h
        · rcases List.mem_cons.mp h with rfl | h'
          · rename_i j hm hij
            exact ⟨i, j, hm, hij, rfl⟩
          · exact ih h'
        · exact ih h
      · exact ih h

theorem mem_findall {m : List Char → Nat → Option Nat} {cs : List Char} {s : String}
    (h : s ∈ findall m cs) :
    ∃ p q, m cs p = some q ∧ p < q ∧ s = sliceStr cs p q := mem_findallAux h

theorem matchIp_last_digit {cs : List Char} {i j : Nat} (h : matchIp cs i = some j) :
    ∃ c, cs[j - 1]? = some c ∧ isPyDigit c = true := by
  simp only [matchIp] at h
  split at h
  · exact absurd h (by simp)
  split at h
  · exact absurd h (by simp)
  split at h
  · exact absurd h (by simp)
  split at h
  · exact absurd h (by simp)
  split at h
  · exact absurd h (by simp)
  next h1 h2 h3 h4 h5 =>
    rw [Option.some.injEq] at h
    subst h
    simp only [Bool.or_eq_true, decide_eq_true_eq, not_or] at h5
    exact runLen_last isPyDigit cs _ h5.1.1

theorem domainTail_last_alpha {cs : List Char} {q e : Nat}
    (h : domainTail cs q = some e) :
    ∃ c, cs[e - 1]? = some c ∧ c.isAlpha = true := by
  simp only [domainTail] at h
  split at h
  · next hcond =>
    rw [Option.some.injEq] at h
    subst h
    simp only [Bool.and_eq_true, decide_eq_true_eq] at hcond
    exact runLen_last Char.isAlpha cs q (by omega)
  · exact absurd h (by simp)

theorem domainFrom_last_alpha {cs : List Char} :
    ∀ {fuel p e : Nat}, domainFrom cs fuel p = some e →
      ∃ c, cs[e - 1]? = some c ∧ c.isAlpha = true := by
  intro fuel
  induction fuel with
  | zero => intro p e h; simp [domainFrom] at h
  | succ fuel ih =>
    intro p e h
    simp only [domainFrom] at h
    split at h
    · exact absurd h (by simp)
    · split at h
      · next heq =>
        rw [Option.some.injEq] at h
        subst h
        exact ih heq
      · exact domainTail_last_alpha h

theorem matchDomain_last_alpha {cs : List Char} {i j : Nat}
    (h : matchDomain cs i = some j) :
    ∃ c, cs[j - 1]? = some c ∧ c.isAlpha = true := by
  simp only [matchDomain] at h
  split at h
  · exact domainFrom_last_alpha h
  · exact absurd h (by simp)

theorem not_isPyDigit_isAlpha {c : Char} (hd : isPyDigit c = true)
    (ha : c.isAlpha = true) : False := by
  simp [Char.isAlpha, Char.isUpper, Char.isLower] at ha
  have hb : (65 ≤ c.toNat ∧ c.toNat ≤ 90) ∨ (97 ≤ c.toNat ∧ c.toNat ≤ 122) := by
    rcases ha with h | h
    · exact Or.inl ⟨h.1, h.2⟩
    · exact Or.inr ⟨h.1, h.2⟩
  simp only [isPyDigit] at hd
  by_cases hlt : c.toNat < 128
  · rw [if_pos hlt] at hd
    simp only [Bool.and_eq_true, decide_eq_true_eq] at hd
    omega
  · omega

theorem mem_ipsOf_last_digit {cs : List Char} {s : String} (h : s ∈ ipsOf cs) :
    ∃ c, s.data.getLast? = some c ∧ isPyDigit c = true := by
  unfold ipsOf at h
  rw [mem_sortDedup] at h
  obtain ⟨p, q, hm, hpq, rfl⟩ := mem_findall h
  obtain ⟨c, hc, hd⟩ := matchIp_last_digit hm
  exact ⟨c, sliceStr_getLast hpq hc, hd⟩

theorem mem_findall_domain_last_alpha {cs : List Char} {s : String}
    (h : s ∈ findall matchDomain cs) :
    ∃ c, s.data.getLast? = some c ∧ c.isAlpha = true := by
  obtain ⟨p, q, hm, hpq, rfl⟩ := mem_findall h
  obtain ⟨c, hc, ha⟩ := matchDomain_last_alpha hm
  exact ⟨c, sliceStr_getLast hpq hc, ha⟩

/-- C9: the IP-exclusion post-filter on domains is vacuous: no raw match of
the domain pattern ever equals a match of the IP pattern (a domain match
ends in an ASCII letter, an IP match in a digit), so the domains list with
the exclusion filter equals the domains list without it. -/
theorem domain_ip_filter_vacuous (t : Option String) :
    (∀ d ∈ findall matchDomain ((t.getD "").data),
       ∀ s ∈ findall matchIp ((t.getD "").data), d ≠ s) ∧
    (extract_indicators t).domains =
      sortDedup (findall matchDomain ((t.getD "").data)) := by
  have key : ∀ d ∈ findall matchDomain ((t.getD "").data),
      d ∉ ipsOf ((t.getD "").data) := by
    intro d hd hip
    obtain ⟨c1, hc1, ha⟩ := mem_findall_domain_last_alpha hd
    obtain ⟨c2, hc2, hdg⟩ := mem_ipsOf_last_digit hip
    rw [hc1, Option.some.injEq] at hc2
    subst hc2
    exact not_isPyDigit_isAlpha hdg ha
  constructor
  · intro d hd s hs heq
    subst heq
    exact key d hd (by
      unfold ipsOf
      rw [mem_sortDedup]
      exact hs)
  · rw [extract_domains]
    unfold domainsOf
    congr 1
    apply List.filter_eq_self.mpr
    intro d hd
    rw [Bool.not_eq_true']
    cases hcon : (ipsOf ((t.getD "").data)).contains d
    · rfl
    · exact absurd (List.elem_iff.mp hcon) (key d hd)

theorem isPyDigit_of_one_le_le_five {a : Char} (h1 : '1' ≤ a) (h5 : a ≤ '5') :
    isPyDigit a = true := by
  have l1 : 49 ≤ a.toNat := h1
  have l5 : a.toNat ≤ 53 := h5
  simp only [isPyDigit]
  rw [if_pos (by omega)]
  simp only [Bool.and_eq_true, decide_eq_true_eq]
  have g1 : 48 ≤ a.toNat := by omega
  have g5 : a.toNat ≤ 57 := by omega
  exact ⟨g1, g5⟩

theorem matchStatus_some {cs : List Char} {i j : Nat}
    (h : matchStatus cs i = some j) :
    j = i + 3 ∧ ∃ a b c, cs[i]? = some a ∧ cs[i + 1]? = some b ∧
      cs[i + 2]? = some c ∧ ('1' ≤ a ∧ a ≤ '5') ∧ isPyDigit b = true ∧
      isPyDigit c = true ∧ wordBoundary cs i = true ∧ isWordAt cs (i + 3) = false := by
  simp only [matchStatus] at h
  split at h
  · exact absurd h (by simp)
  next hwb =>
    split at h
    · next a b c ha hb hc =>
      split at h
      · next hcond =>
        rw [Option.some.injEq] at h
        simp only [Bool.and_eq_true, decide_eq_true_eq, Bool.not_eq_true'] at hcond
        simp only [Bool.not_eq_true, Bool.not_eq_false'] at hwb
        exact ⟨h.symm, a, b, c, ha, hb, hc, ⟨hcond.1.1.1.1, hcond.1.1.1.2⟩,
          hcond.1.1.2, hcond.1.2, hwb, hcond.2⟩
      · exact absurd h (by simp)
    · exact absurd h (by simp)

theorem matchStatus_eq_some {cs : List Char} {i : Nat} {a b c : Char}
    (ha : cs[i]? = some a) (hb : cs[i + 1]? = some b) (hc : cs[i + 2]? = some c)
    (h1 : '1' ≤ a) (h5 : a ≤ '5') (hbd : isPyDigit b = true) (hcd : isPyDigit c = true)
    (hwb : wordBoundary cs i = true) (hwa : isWordAt cs (i + 3) = false) :
    matchStatus cs i = some (i + 3) := by
  simp only [matchStatus, ha, hb, hc, hwb, hwa, hbd, hcd, decide_eq_true h1,
    decide_eq_true h5]
  simp

theorem isWordChar_of_digit {c : Char} (h : isPyDigit c = true) :
    isWordChar c = true := by
  simp [isWordChar, h]

theorem isWordAt_eq {cs : List Char} {i : Nat} {c : Char} (h : cs[i]? = some c) :
    isWordAt cs i = isWordChar c := by
  unfold isWordAt
  rw [h]

theorem matchStatus_no_overlap {cs : List Char} (i j q : Nat)
    (h : matchStatus cs i = some j) (h1 : i < q) (h2 : q < j) :
    matchStatus cs q = none := by
  obtain ⟨rfl, a, b, c, ha, hb, hc, h15, hbd, hcd, _, _⟩ := matchStatus_some h
  have had : isPyDigit a = true := isPyDigit_of_one_le_le_five h15.1 h15.2
  have hqcases : q = i + 1 ∨ q = i + 2 := by omega
  have hwb : wordBoundary cs q = false := by
    rcases hqcases with rfl | rfl
    · unfold wordBoundary
      rw [if_neg (by omega), show i + 1 - 1 = i from by omega,
          isWordAt_eq ha, isWordAt_eq hb,
          isWordChar_of_digit had, isWordChar_of_digit hbd]
      rfl
    · unfold wordBoundary
      rw [if_neg (by omega), show i + 2 - 1 = i + 1 from by omega,
          isWordAt_eq hb, isWordAt_eq hc,
          isWordChar_of_digit hbd, isWordChar_of_digit hcd]
      rfl
  simp only [matchStatus, hwb]
  simp

theorem findallAux_complete {m : List Char → Nat → Option Nat} {cs : List Char}
    (hno : ∀ i j q, m cs i = some j → i < q → q < j → m cs q = none) :
    ∀ {fuel i q j : Nat}, cs.length ≤ fuel + i → i ≤ q → q < cs.length →
      m cs q = some j → q < j → sliceStr cs q j ∈ findallAux m cs fuel i := by
  intro fuel
  induction fuel with
  | zero =>
    intro i q j hf hiq hq hm hqj
    exact absurd hq (by omega)
  | succ fuel ih =>
    intro i q j hf hiq hq hm hqj
    rw [findallAux]
    split
    · next hlen => exact absurd hq (by omega)
    · next hlen =>
      cases hmi : m cs i with
      | some j' =>
        simp only [hmi]
        by_cases hij : i < j'
        · rw [if_pos hij]
          by_cases hqi : q = i
          · subst hqi
            rw [hm, Option.some.injEq] at hmi
            subst hmi
            exact List.mem_cons_self _ _
          · have hnot : ¬ (i < q ∧ q < j') := by
              rintro ⟨ha, hb⟩
              rw [hno i j' q hmi ha hb] at hm
              exact Option.noConfusion hm
            have hj'q : j' ≤ q := by omega
            exact List.mem_cons_of_mem _ (ih (by omega) hj'q hq hm hqj)
        · rw [if_neg hij]
          have hqi : q ≠ i := by
            intro he
            subst he
            rw [hm, Option.some.injEq] at hmi
            omega
          exact ih (by omega) (by omega) hq hm hqj
      | none =>
        simp only [hmi]
        have hqi : q ≠ i := by
          intro he
          subst he
          rw [hm] at hmi
          exact Option.noConfusion hmi
        exact ih (by omega) (by omega) hq hm hqj

theorem sliceStr_three {cs : List Char} {p : Nat} {a b c : Char}
    (ha : cs[p]? = some a) (hb : cs[p + 1]? = some b) (hc : cs[p + 2]? = some c) :
    sliceStr cs p (p + 3) = String.mk [a, b, c] := by
  obtain ⟨h1, e1⟩ := List.getElem?_eq_some_iff.mp ha
  obtain ⟨h2, e2⟩ := List.getElem?_eq_some_iff.mp hb
  obtain ⟨h3, e3⟩ := List.getElem?_eq_some_iff.mp hc
  unfold sliceStr
  congr 1
  rw [show p + 3 - p = 3 from by omega]
  rw [List.drop_eq_getElem_cons h1, e1, List.drop_eq_getElem_cons h2, e2,
      List.drop_eq_getElem_cons h3, e3]
  simp

/-- Membership in the raw status-code matches is exactly the existence of a
word-bounded three-digit token with first digit 1..5 at some position. -/
theorem status_findall_mem_iff (cs : List Char) (s : String) :
    s ∈ findall matchStatus cs ↔ ∃ i, statusTokenAt cs i s := by
  constructor
  · intro h
    obtain ⟨p, q, hm, hpq, rfl⟩ := mem_findall h
    obtain ⟨rfl, a, b, c, ha, hb, hc, h15, hbd, hcd, hwb, hwa⟩ := matchStatus_some hm
    exact ⟨p, a, b, c, ha, hb, hc, h15, hbd, hcd, hwb, hwa,
      (sliceStr_three ha hb hc).symm ▸ rfl⟩
  · rintro ⟨i, a, b, c, ha, hb, hc, h15, hbd, hcd, hwb, hwa, rfl⟩
    have hm : matchStatus cs i = some (i + 3) :=
      matchStatus_eq_some ha hb hc h15.1 h15.2 hbd hcd hwb hwa
    have hq : i < cs.length := (List.getElem?_eq_some_iff.mp ha).1
    have hmem := @findallAux_complete matchStatus cs
      (fun i j q h h1 h2 => matchStatus_no_overlap i j q h h1 h2)
      (cs.length + 1) 0 i (i + 3) (by omega) (by omega) hq hm (by omega)
    rw [sliceStr_three ha hb hc] at hmem
    exact hmem

/-- C4: status_codes contains exactly the distinct standalone (word-bounded)
three-digit tokens of the text whose first digit is between 1 and 5; in
particular "returned code 404 after 999 retries" yields "404" but not
"999". -/
theorem status_codes_characterization :
    (∀ (t : Option String) (s : String),
      s ∈ (extract_indicators t).status_codes ↔
        ∃ i, statusTokenAt ((t.getD "").data) i s) ∧
    ("404" ∈ (extract_indicators
        (some "returned code 404 after 999 retries")).status_codes ∧
     "999" ∉ (extract_indicators
        (some "returned code 404 after 999 retries")).status_codes) := by
  constructor
  · intro t s
    rw [extract_status_codes]
    unfold statusCodesOf
    rw [mem_sortDedup]
    exact status_findall_mem_iff _ s
  · exact ⟨by decide, by decide⟩

theorem digit_toNat_bounds {c : Char} (h : c.isDigit = true) :
    48 ≤ c.toNat ∧ c.toNat ≤ 57 := by
  simp only [Char.isDigit, Bool.and_eq_true, decide_eq_true_eq] at h
  exact ⟨h.1, h.2⟩

theorem codeVal_eq {s : String} {a b c : Char} (h : s.data = [a, b, c]) :
    codeVal s = 100 * digitVal a + 10 * digitVal b + digitVal c := by
  unfold codeVal
  rw [h]

theorem digitVal_ascii {c : Char} (h : c.isDigit = true) :
    digitVal c = c.toNat - 48 := by
  obtain ⟨_, hu⟩ := digit_toNat_bounds h
  simp only [digitVal]
  rw [if_pos (by omega)]

theorem charsLt_three_digits {a1 b1 c1 a2 b2 c2 : Char}
    (da1 : a1.isDigit = true) (db1 : b1.isDigit = true) (dc1 : c1.isDigit = true)
    (da2 : a2.isDigit = true) (db2 : b2.isDigit = true) (dc2 : c2.isDigit = true) :
    (charsLt [a1, b1, c1] [a2, b2, c2] = true ↔
      100 * (a1.toNat - 48) + 10 * (b1.toNat - 48) + (c1.toNat - 48) <
      100 * (a2.toNat - 48) + 10 * (b2.toNat - 48) + (c2.toNat - 48)) := by
  obtain ⟨la1, ua1⟩ := digit_toNat_bounds da1
  obtain ⟨lb1, ub1⟩ := digit_toNat_bounds db1
  obtain ⟨lc1, uc1⟩ := digit_toNat_bounds dc1
  obtain ⟨la2, ua2⟩ := digit_toNat_bounds da2
  obtain ⟨lb2, ub2⟩ := digit_toNat_bounds db2
  obtain ⟨lc2, uc2⟩ := digit_toNat_bounds dc2
  simp only [charsLt]
  by_cases h1 : a1 < a2
  · have n1 : a1.toNat < a2.toNat := h1
    rw [if_pos h1]
    exact iff_of_true rfl (by omega)
  · have n1 : ¬ a1.toNat < a2.toNat := fun hn => h1 hn
    rw [if_neg h1]
    by_cases h2 : a2 < a1
    · have n2 : a2.toNat < a1.toNat := h2
      rw [if_pos h2]
      exact iff_of_false (by simp) (by omega)
    · have n2 : ¬ a2.toNat < a1.toNat := fun hn => h2 hn
      rw [if_neg h2]
      by_cases h3 : b1 < b2
      · have n3 : b1.toNat < b2.toNat := h3
        rw [if_pos h3]
        exact iff_of_true rfl (by omega)
      · have n3 : ¬ b1.toNat < b2.toNat := fun hn => h3 hn
        rw [if_neg h3]
        by_cases h4 : b2 < b1
        · have n4 : b2.toNat < b1.toNat := h4
          rw [if_pos h4]
          exact iff_of_false (by simp) (by omega)
        · have n4 : ¬ b2.toNat < b1.toNat := fun hn => h4 hn
          rw [if_neg h4]
          by_cases h5 : c1 < c2
          · have n5 : c1.toNat < c2.toNat := h5
            rw [if_pos h5]
            exact iff_of_true rfl (by omega)
          · have n5 : ¬ c1.toNat < c2.toNat := fun hn => h5 hn
            rw [if_neg h5]
            by_cases h6 : c2 < c1
            · have n6 : c2.toNat < c1.toNat := h6
              rw [if_pos h6]
              exact iff_of_false (by simp) (by omega)
            · have n6 : ¬ c2.toNat < c1.toNat := fun hn => h6 hn
              rw [if_neg h6]
              exact iff_of_false (by simp) (by omega)

theorem mem_status_codes_shape {t : Option String} {s : String}
    (h : s ∈ (extract_indicators t).status_codes) :
    ∃ a b c, s.data = [a, b, c] ∧ isPyDigit a = true ∧ isPyDigit b = true ∧
      isPyDigit c = true ∧ '1' ≤ a ∧ a ≤ '5' := by
  rw [extract_status_codes] at h
  unfold statusCodesOf at h
  rw [mem_sortDedup] at h
  obtain ⟨p, q, hm, hpq, rfl⟩ := mem_findall h
  obtain ⟨rfl, a, b, c, ha, hb, hc, h15, hbd, hcd, _, _⟩ := matchStatus_some hm
  refine ⟨a, b, c, ?_, isPyDigit_of_one_le_le_five h15.1 h15.2, hbd, hcd,
    h15.1, h15.2⟩
  rw [sliceStr_three ha hb hc]

/-- C10 (counterexample): the text "499 4٣٣" (U+0663 is the Arabic-Indic
digit three, Unicode category Nd, matched by the pattern's `\d`) puts
"4٣٣" into status_codes, which is not a string of three ASCII decimal
digits; and "499" < "4٣٣" in lexicographic string order while the code 499
is numerically greater than 433, so lexicographic order does not coincide
with numeric order on this list. -/
theorem status_codes_unicode_cex :
    ("4٣٣" ∈ (extract_indicators (some "499 4٣٣")).status_codes) ∧
    ("499" ∈ (extract_indicators (some "499 4٣٣")).status_codes) ∧
    ¬ ("4٣٣" : String).data.all Char.isDigit = true ∧
    ("499" : String) < "4٣٣" ∧
    codeVal "4٣٣" < codeVal "499" := by
  refine ⟨by decide, by decide, by decide, ?_, by decide⟩
  rw [← charsLt_iff_lt]
  decide

/-- C10 (amended): every element of status_codes is a three-character
string whose first character is an ASCII digit between 1 and 5 and whose
other two characters are Unicode decimal digits; and between elements
consisting of ASCII digits only, lexicographic string order coincides with
numeric order of the denoted codes. -/
theorem status_codes_ascii_shape_order (t : Option String) (s₁ s₂ : String)
    (h₁ : s₁ ∈ (extract_indicators t).status_codes)
    (h₂ : s₂ ∈ (extract_indicators t).status_codes) :
    (∃ a b c, s₁.data = [a, b, c] ∧ isPyDigit a = true ∧ isPyDigit b = true ∧
      isPyDigit c = true ∧ '1' ≤ a ∧ a ≤ '5') ∧
    (s₁.data.all Char.isDigit = true → s₂.data.all Char.isDigit = true →
      (s₁ < s₂ ↔ codeVal s₁ < codeVal s₂)) := by
  obtain ⟨a1, b1, c1, e1, da1, db1, dc1, l1, u1⟩ := mem_status_codes_shape h₁
  obtain ⟨a2, b2, c2, e2, da2, db2, dc2, l2, u2⟩ := mem_status_codes_shape h₂
  refine ⟨⟨a1, b1, c1, e1, da1, db1, dc1, l1, u1⟩, ?_⟩
  intro hall1 hall2
  rw [e1] at hall1
  rw [e2] at hall2
  simp only [List.all_cons, List.all_nil, Bool.and_eq_true, Bool.and_true] at hall1 hall2
  obtain ⟨k1, k2, k3⟩ := hall1
  obtain ⟨k4, k5, k6⟩ := hall2
  rw [← charsLt_iff_lt, e1, e2, codeVal_eq e1, codeVal_eq e2,
      digitVal_ascii k1, digitVal_ascii k2, digitVal_ascii k3,
      digitVal_ascii k4, digitVal_ascii k5, digitVal_ascii k6]
  exact charsLt_three_digits k1 k2 k3 k4 k5 k6

/-- C10 witness: the amended statement applied to the two codes of a
concrete text. -/
theorem status_codes_ascii_shape_order_witness :
    (∃ a b c, ("100" : String).data = [a, b, c] ∧ isPyDigit a = true ∧
      isPyDigit b = true ∧ isPyDigit c = true ∧ '1' ≤ a ∧ a ≤ '5') ∧
    (("100" : String).data.all Char.isDigit = true →
      ("599" : String).data.all Char.isDigit = true →
      (("100" : String) < "599" ↔ codeVal "100" < codeVal "599")) :=
  status_codes_ascii_shape_order (some "codes 100 then 599") "100" "599"
    (by decide) (by decide)

theorem kwAt_iff (cs kw : List Char) (i : Nat) :
    kwAt cs kw i = true ↔
      ciMatchesList ((cs.drop i).take kw.length) kw = true ∧
      wordBoundary cs i = true ∧ wordBoundary cs (i + kw.length) = true := by
  simp [kwAt, Bool.and_eq_true, and_assoc]

theorem searchKw_iff (cs kw : List Char) (hkw : kw ≠ []) :
    searchKw cs kw = true ↔ occursWholeWordCI cs kw := by
  unfold searchKw occursWholeWordCI
  rw [List.any_eq_true]
  constructor
  · rintro ⟨i, _, hat⟩
    obtain ⟨h1, h2, h3⟩ := (kwAt_iff cs kw i).mp hat
    exact ⟨i, h1, h2, h3⟩
  · rintro ⟨i, h1, h2, h3⟩
    have hle : i ≤ cs.length := by
      by_contra hgt
      push_neg at hgt
      rw [List.drop_eq_nil_of_le (by omega), List.take_nil] at h1
      cases kw with
      | nil => exact hkw rfl
      | cons l ls => simp [ciMatchesList] at h1
    exact ⟨i, List.mem_range.mpr (by omega), (kwAt_iff cs kw i).mpr ⟨h1, h2, h3⟩⟩

theorem KEYWORDS_data_ne_nil {kw : String} (h : kw ∈ KEYWORDS) :
    kw.data ≠ [] := by
  fin_cases h <;> decide

/-- C5: the keywords list contains, in the fixed seven-literal order,
exactly those lowercase literals that occur as a whole word in the text
under case-insensitive matching; "ERROR: Access Denied" yields
["error", "denied"]. -/
theorem keywords_characterization :
    (∀ (t : Option String) (kw : String),
      kw ∈ (extract_indicators t).keywords ↔
        kw ∈ KEYWORDS ∧ occursWholeWordCI ((t.getD "").data) kw.data) ∧
    (∀ t : Option String, (extract_indicators t).keywords.Sublist KEYWORDS) ∧
    (extract_indicators (some "ERROR: Access Denied")).keywords =
      ["error", "denied"] := by
  refine ⟨?_, fun t => List.filter_sublist _, by rfl⟩
  intro t kw
  rw [extract_keywords]
  unfold keywordsOf
  rw [List.mem_filter]
  constructor
  · rintro ⟨hmem, hsearch⟩
    exact ⟨hmem,
      (searchKw_iff _ _ (KEYWORDS_data_ne_nil hmem)).mp hsearch⟩
  · rintro ⟨hmem, hocc⟩
    exact ⟨hmem,
      (searchKw_iff _ _ (KEYWORDS_data_ne_nil hmem)).mpr hocc⟩
